import Mathlib

/-!
Verification of the deterministic tractography pipeline of the SDC-BIDS-dMRI
lesson material.  The repository's own code is the notebook
`code/deterministic_tractography/deterministic_tractography.ipynb` and the
episode `_episodes/constrained_spherical_deconvolution.md`; the numerical
engine (dipy) is external, so those stages are modelled from the spec where
noted.  Scalars are embedded as exact rationals; IEEE special values (NaN,
infinities) are embedded symbolically by the inductive type `FVal`.
-/

namespace DMRI

/-! ## Floating-point scalar values and FA sanitization

The notebook sanitizes the fractional-anisotropy (FA) map with
`fa_img[np.isnan(fa_img)] = 0`.  A scalar cell of the map is embedded as
`FVal`: NaN, one of the two infinities, or a finite rational. -/

/-- A scalar voxel value: IEEE special values are represented symbolically,
finite values exactly as rationals. -/
inductive FVal where
  | nan : FVal
  | pinf : FVal
  | ninf : FVal
  | fin : ℚ → FVal
deriving DecidableEq

/-- Embedding of `np.isnan` on one value: true exactly on NaN. -/
def isnan : FVal → Bool
  | FVal.nan => true
  | _ => false

/-- A value is finite when it is neither NaN nor an infinity. -/
def isFiniteVal : FVal → Bool
  | FVal.fin _ => true
  | _ => false

/-- Embedding of the notebook line `fa_img[np.isnan(fa_img)] = 0` acting on
one voxel: NaN becomes 0, everything else is untouched. -/
def sanitizeVal (v : FVal) : FVal :=
  if isnan v then FVal.fin 0 else v

/-- The whole-map sanitization step: `sanitizeVal` applied voxelwise. -/
def sanitizeFA (m : List FVal) : List FVal :=
  m.map sanitizeVal

/-- Modelled from the spec: a value of the FA scalar map as produced by the
tensor fit is either NaN (degenerate background fit) or a finite scalar in
[0,1]; infinities do not occur in an FA map. -/
def faValueOk (v : FVal) : Bool :=
  match v with
  | FVal.nan => true
  | FVal.fin q => decide (0 ≤ q ∧ q ≤ 1)
  | _ => false

lemma sanitizeVal_of_faValueOk {v : FVal} (h : faValueOk v = true) :
    sanitizeVal v = if isFiniteVal v then v else FVal.fin 0 := by
  cases v with
  | nan => rfl
  | pinf => simp [faValueOk] at h
  | ninf => simp [faValueOk] at h
  | fin q => rfl

lemma sanitizeVal_idem (v : FVal) :
    sanitizeVal (sanitizeVal v) = sanitizeVal v := by
  cases v <;> rfl

/-- Claim C1: for every voxel of the FA scalar map (whose values, per the
spec, are NaN or finite scalars in [0,1]), the sanitization step replaces
every non-finite value with zero and leaves every finite value unchanged,
and sanitizing twice is the same as sanitizing once. -/
theorem fa_sanitization_correct (m : List FVal)
    (h : ∀ v ∈ m, faValueOk v = true) :
    sanitizeFA m = m.map (fun v => if isFiniteVal v then v else FVal.fin 0)
      ∧ sanitizeFA (sanitizeFA m) = sanitizeFA m := by
  constructor
  · unfold sanitizeFA
    exact List.map_congr_left fun v hv => sanitizeVal_of_faValueOk (h v hv)
  · unfold sanitizeFA
    rw [List.map_map]
    exact List.map_congr_left fun v _ => sanitizeVal_idem v

/-- Witness for C1 at a concrete three-voxel FA map. -/
theorem fa_sanitization_correct_witness :
    sanitizeFA [FVal.fin (1/2), FVal.nan, FVal.fin 1]
        = [FVal.fin (1/2), FVal.nan, FVal.fin 1].map
            (fun v => if isFiniteVal v then v else FVal.fin 0)
      ∧ sanitizeFA (sanitizeFA [FVal.fin (1/2), FVal.nan, FVal.fin 1])
        = sanitizeFA [FVal.fin (1/2), FVal.nan, FVal.fin 1] :=
  fa_sanitization_correct [FVal.fin (1/2), FVal.nan, FVal.fin 1]
    (by intro v hv; fin_cases hv <;> norm_num [faValueOk])

/-! ## Streamline propagation and the FA stopping criterion

Modelled from the spec (sections 4.4 and 4.6): the tracer repeatedly
interpolates the peak-direction field at the current sub-voxel position,
advances by `step_size x direction`, and continues exactly while the
position is inside the valid data region and the interpolated scalar (FA)
value there is at least the threshold tau.  The interpolated FA field and
the direction field are abstract functions on continuous positions. -/

/-- A point in continuous 3-D (voxel or physical) coordinates. -/
structure Vec3 where
  x : ℚ
  y : ℚ
  z : ℚ
deriving DecidableEq

/-- Advance a position by `h` times a direction vector. -/
def stepPos (p d : Vec3) (h : ℚ) : Vec3 :=
  Vec3.mk (p.x + h * d.x) (p.y + h * d.y) (p.z + h * d.z)

/-- Vector negation, used for the backward tracing direction. -/
def negV (v : Vec3) : Vec3 :=
  Vec3.mk (-v.x) (-v.y) (-v.z)

/-- Modelled from the spec: one tracing direction of the streamline tracer
(dipy `LocalTracking` is external).  At each step the current position is
kept iff it lies inside the valid region and the interpolated scalar field
is at least `tau`; otherwise propagation terminates.  `fuel` bounds the
maximum number of steps (the spec's maximum-length bound). -/
def propagate (fa : Vec3 → ℚ) (tau : ℚ) (dirf : Vec3 → Vec3) (h : ℚ)
    (inside : Vec3 → Bool) : Nat → Vec3 → List Vec3
  | 0, _ => []
  | Nat.succ n, p =>
    if inside p = true ∧ tau ≤ fa p then
      p :: propagate fa tau dirf h inside n (stepPos p (dirf p) h)
    else []

/-- The position the tracer would visit next after a given trace: the seed
itself when the trace is empty, else one step past the trace's last point. -/
def contPos (dirf : Vec3 → Vec3) (h : ℚ) (seed : Vec3)
    (trace : List Vec3) : Vec3 :=
  match trace.getLast? with
  | none => seed
  | some q => stepPos q (dirf q) h

/-- Modelled from the spec: the full streamline of one seed, the backward
trace (reversed) concatenated with the forward trace; empty when the seed
itself fails the stopping criterion. -/
def track (fa : Vec3 → ℚ) (tau : ℚ) (dirf : Vec3 → Vec3) (h : ℚ)
    (inside : Vec3 → Bool) (fuel : Nat) (seed : Vec3) : List Vec3 :=
  if inside seed = true ∧ tau ≤ fa seed then
    (propagate fa tau (fun p => negV (dirf p)) h inside fuel
        (stepPos seed (negV (dirf seed)) h)).reverse
      ++ propagate fa tau dirf h inside fuel seed
  else []

lemma contPos_cons (dirf : Vec3 → Vec3) (h : ℚ) (s p : Vec3)
    (l : List Vec3) :
    contPos dirf h s (p :: l) = contPos dirf h (stepPos p (dirf p) h) l := by
  cases l with
  | nil => rfl
  | cons q qs =>
    unfold contPos
    rw [List.getLast?_cons_cons]
    cases hqs : (q :: qs).getLast? with
    | none => exact absurd hqs (by simp)
    | some r => rfl

lemma propagate_sound (fa : Vec3 → ℚ) (tau : ℚ) (dirf : Vec3 → Vec3)
    (h : ℚ) (inside : Vec3 → Bool) :
    ∀ (fuel : Nat) (seed : Vec3),
      (∀ q ∈ propagate fa tau dirf h inside fuel seed,
          inside q = true ∧ tau ≤ fa q)
      ∧ ((propagate fa tau dirf h inside fuel seed).length < fuel →
          ¬(inside (contPos dirf h seed
                (propagate fa tau dirf h inside fuel seed)) = true
            ∧ tau ≤ fa (contPos dirf h seed
                (propagate fa tau dirf h inside fuel seed)))) := by
  intro fuel
  induction fuel with
  | zero =>
    intro seed
    refine ⟨fun q hq => absurd hq (by simp [propagate]), ?_⟩
    intro hlt
    exact absurd hlt (by simp)
  | succ n ih =>
    intro seed
    by_cases hc : inside seed = true ∧ tau ≤ fa seed
    · have hexp : propagate fa tau dirf h inside (Nat.succ n) seed
          = seed :: propagate fa tau dirf h inside n
              (stepPos seed (dirf seed) h) := by
        simp [propagate, hc]
      obtain ⟨ih1, ih2⟩ := ih (stepPos seed (dirf seed) h)
      constructor
      · intro q hq
        rw [hexp] at hq
        rcases List.mem_cons.mp hq with hq | hq
        · rw [hq]; exact hc
        · exact ih1 q hq
      · intro hlt
        rw [hexp] at hlt ⊢
        rw [contPos_cons]
        exact ih2 (by simpa using hlt)
    · have hexp : propagate fa tau dirf h inside (Nat.succ n) seed = [] := by
        simp [propagate, hc]
      refine ⟨fun q hq => absurd hq (by simp [hexp]), ?_⟩
      intro _
      rw [hexp]
      exact hc

/-- Claim C2: during streamline propagation with FA threshold tau = 0.2,
every retained step position satisfies the criterion (inside the data
region and interpolated FA >= 1/5), and whenever propagation stops before
exhausting its step budget, the very next position fails the criterion: the
predicate is evaluated at every propagation step and propagation continues
exactly while it holds. -/
theorem stopping_criterion_threshold (fa : Vec3 → ℚ) (dirf : Vec3 → Vec3)
    (h : ℚ) (inside : Vec3 → Bool) (fuel : Nat) (seed : Vec3) :
    (∀ q ∈ propagate fa (1/5) dirf h inside fuel seed,
        inside q = true ∧ (1:ℚ)/5 ≤ fa q)
    ∧ ((propagate fa (1/5) dirf h inside fuel seed).length < fuel →
        ¬(inside (contPos dirf h seed
              (propagate fa (1/5) dirf h inside fuel seed)) = true
          ∧ (1:ℚ)/5 ≤ fa (contPos dirf h seed
              (propagate fa (1/5) dirf h inside fuel seed)))) :=
  propagate_sound fa (1/5) dirf h inside fuel seed

/-- Constant direction field pointing along the first axis. -/
def dirX : Vec3 → Vec3 := fun _ => Vec3.mk 1 0 0

/-- Trivial validity region: every position is inside. -/
def allInside : Vec3 → Bool := fun _ => true

/-- A scalar field that is 1 up to x = 2 and 0 beyond it. -/
def faRamp : Vec3 → ℚ := fun p => if p.x ≤ 2 then 1 else 0

/-- The origin, used as a concrete seed. -/
def origin3 : Vec3 := Vec3.mk 0 0 0

/-- Witness for C2: on the concrete ramp field the trace stops after three
steps, and the position one step past it indeed fails the FA criterion. -/
theorem stopping_criterion_threshold_witness :
    ¬(allInside (contPos dirX 1 origin3
          (propagate faRamp (1/5) dirX 1 allInside 5 origin3)) = true
      ∧ (1:ℚ)/5 ≤ faRamp (contPos dirX 1 origin3
          (propagate faRamp (1/5) dirX 1 allInside 5 origin3))) :=
  (stopping_criterion_threshold faRamp dirX 1 allInside 5 origin3).2
    (by norm_num [propagate, faRamp, dirX, allInside, origin3, stepPos])

/-- Claim C6: a seed whose FA value is below the stopping threshold 1/5
produces a streamline of at most one point (the tracer terminates
immediately; in this model the streamline is empty). -/
theorem bad_seed_terminates (fa : Vec3 → ℚ) (dirf : Vec3 → Vec3) (h : ℚ)
    (inside : Vec3 → Bool) (fuel : Nat) (seed : Vec3)
    (hlow : fa seed < 1/5) :
    (track fa (1/5) dirf h inside fuel seed).length ≤ 1 := by
  unfold track
  rw [if_neg]
  · simp
  · rintro ⟨-, hge⟩
    exact absurd hge (not_le.mpr hlow)

/-- The identically-zero scalar field. -/
def faZero : Vec3 → ℚ := fun _ => 0

/-- Witness for C6: a seed in a zero-FA field yields at most one point. -/
theorem bad_seed_terminates_witness :
    (track faZero (1/5) dirX 1 allInside 3 origin3).length ≤ 1 :=
  bad_seed_terminates faZero dirX 1 allInside 3 origin3
    (by norm_num [faZero])

/-! ## End-to-end synthetic tracing scenario

A 3x3x3 volume is modelled as the region [0,3)^3 in continuous voxel
coordinates (voxel (i,j,k) occupies [i,i+1) x [j,j+1) x [k,k+1)); the
center voxel's center is (3/2,3/2,3/2).  The tensor field has FA = 4/5
everywhere inside and principal direction +x; the affine is the identity,
so voxel and physical coordinates coincide. -/

/-- Membership in the 3x3x3 volume [0,3)^3. -/
def inside7 : Vec3 → Bool := fun p =>
  decide (0 ≤ p.x ∧ p.x < 3 ∧ 0 ≤ p.y ∧ p.y < 3 ∧ 0 ≤ p.z ∧ p.z < 3)

/-- FA field of the scenario: 4/5 inside the volume, 0 outside. -/
def fa7 : Vec3 → ℚ := fun p => if inside7 p then 4/5 else 0

/-- The seed at the center of the center voxel of the 3x3x3 volume. -/
def seed7 : Vec3 := Vec3.mk (3/2) (3/2) (3/2)

/-- The streamline traced from the center seed with step size 1/2. -/
def scenarioStreamline : List Vec3 :=
  track fa7 (1/5) dirX (1/2) inside7 10 seed7

/-- Claim C7: on the synthetic 3x3x3 single-direction field with FA = 0.8
everywhere and one seed at the center, tracing with step size 0.5 yields
exactly the 6 = ceil(3 / 0.5) points spanning the volume (the boundary
distance along the track through the seed is the volume's extent 3), and
the points move monotonically along the +x principal direction until the
streamline exits the volume. -/
theorem synthetic_tracing_scenario :
    scenarioStreamline
      = [Vec3.mk 0 (3/2) (3/2), Vec3.mk (1/2) (3/2) (3/2),
         Vec3.mk 1 (3/2) (3/2), Vec3.mk (3/2) (3/2) (3/2),
         Vec3.mk 2 (3/2) (3/2), Vec3.mk (5/2) (3/2) (3/2)]
    ∧ scenarioStreamline.length = 6
    ∧ (6 : ℤ) = Int.ceil ((3 : ℚ) / (1/2))
    ∧ List.Chain' (fun a b => a.x < b.x ∧ a.y = b.y ∧ a.z = b.z)
        scenarioStreamline := by
  have hs : scenarioStreamline
      = [Vec3.mk 0 (3/2) (3/2), Vec3.mk (1/2) (3/2) (3/2),
         Vec3.mk 1 (3/2) (3/2), Vec3.mk (3/2) (3/2) (3/2),
         Vec3.mk 2 (3/2) (3/2), Vec3.mk (5/2) (3/2) (3/2)] := by
    norm_num [scenarioStreamline, track, propagate, fa7, inside7, dirX,
      seed7, stepPos, negV]
  have hceil : Int.ceil ((3 : ℚ) / (1/2)) = 6 := by
    have h6 : ((3 : ℚ) / (1/2)) = ((6 : ℤ) : ℚ) := by norm_num
    rw [h6, Int.ceil_intCast]
  refine ⟨hs, ?_, hceil.symm, ?_⟩
  · rw [hs]; rfl
  · rw [hs]
    refine List.chain'_cons.mpr ⟨?_, List.chain'_cons.mpr ⟨?_,
      List.chain'_cons.mpr ⟨?_, List.chain'_cons.mpr ⟨?_,
      List.chain'_cons.mpr ⟨?_, List.chain'_singleton _⟩⟩⟩⟩⟩ <;>
      refine ⟨by norm_num, rfl, rfl⟩

/-! ## Peak discretization

Modelled from the spec (section 4.3): dipy `peaks_from_model` is external.
Candidate peaks are ranked by magnitude, those below the relative peak
threshold are dropped, and the remaining ones are retained greedily,
strongest first, skipping any candidate within the minimum separation
angle of an already retained (hence stronger) peak, up to `k` peaks. -/

/-- A candidate peak: a direction on the discrete sphere and a magnitude. -/
structure Peak where
  dir : Vec3
  mag : ℚ
deriving DecidableEq

/-- Insert a peak into a list sorted by decreasing magnitude. -/
def insertByMag (p : Peak) : List Peak → List Peak
  | [] => [p]
  | q :: qs => if q.mag < p.mag then p :: q :: qs else q :: insertByMag p qs

/-- Sort candidate peaks by decreasing magnitude (strongest first). -/
def sortByMag (l : List Peak) : List Peak :=
  l.foldr insertByMag []

/-- Greedy strongest-first selection: a candidate is retained iff fewer
than `k` peaks are retained so far and it is not too close (within the
minimum separation angle, decided by `tc`) to any already retained peak. -/
def selectPeaks (tc : Vec3 → Vec3 → Bool) (k : Nat) :
    List Peak → List Peak → List Peak
  | acc, [] => acc.reverse
  | acc, p :: rest =>
    if acc.length < k ∧ ∀ q ∈ acc, tc p.dir q.dir = false then
      selectPeaks tc k (p :: acc) rest
    else selectPeaks tc k acc rest

/-- Modelled from the spec: the peak-extraction step.  `theta` is the
relative peak threshold (candidates below `theta` times the strongest
magnitude are dropped), `tc` decides "closer than the minimum separation
angle", and `k` is the maximum number of peaks per voxel. -/
def peaksFromModel (tc : Vec3 → Vec3 → Bool) (theta : ℚ) (k : Nat)
    (cands : List Peak) : List Peak :=
  let sorted := sortByMag cands
  let mx := (sorted.head?).elim 0 Peak.mag
  selectPeaks tc k [] (sorted.filter fun p => decide (theta * mx ≤ p.mag))

lemma selectPeaks_spec (tc : Vec3 → Vec3 → Bool) (k : Nat)
    (hsym : ∀ u v, tc u v = tc v u) :
    ∀ (cands acc : List Peak), acc.length ≤ k →
      List.Pairwise (fun a b => tc a.dir b.dir = false) acc →
      (selectPeaks tc k acc cands).length ≤ k
      ∧ List.Pairwise (fun a b => tc a.dir b.dir = false)
          (selectPeaks tc k acc cands) := by
  intro cands
  induction cands with
  | nil =>
    intro acc hlen hpw
    refine ⟨by simpa [selectPeaks] using hlen, ?_⟩
    rw [selectPeaks, List.pairwise_reverse]
    exact hpw.imp fun hab => by
      rw [hsym]
      exact hab
  | cons p rest ih =>
    intro acc hlen hpw
    by_cases hc : acc.length < k ∧ ∀ q ∈ acc, tc p.dir q.dir = false
    · rw [selectPeaks, if_pos hc]
      refine ih (p :: acc) hc.1 ?_
      exact List.pairwise_cons.mpr ⟨hc.2, hpw⟩
    · rw [selectPeaks, if_neg hc]
      exact ih acc hlen hpw

/-- Claim C3: peak extraction returns at most `k` directions per voxel,
and no two returned directions are closer than the minimum separation
angle (the closeness test `tc` being symmetric); suppression is
strongest-first by construction of `peaksFromModel`. -/
theorem peak_limit_separation (tc : Vec3 → Vec3 → Bool) (theta : ℚ)
    (k : Nat) (cands : List Peak) (hsym : ∀ u v, tc u v = tc v u) :
    (peaksFromModel tc theta k cands).length ≤ k
    ∧ List.Pairwise (fun a b => tc a.dir b.dir = false)
        (peaksFromModel tc theta k cands) := by
  unfold peaksFromModel
  exact selectPeaks_spec tc k hsym _ [] (Nat.zero_le k) List.Pairwise.nil

/-- The inner product of two direction vectors. -/
def dotV (u v : Vec3) : ℚ := u.x * v.x + u.y * v.y + u.z * v.z

/-- The squared Euclidean norm of a direction vector. -/
def normSq (u : Vec3) : ℚ := dotV u u

/-- Modelled from the spec: two peak directions are closer than the
25-degree minimum separation angle iff the squared cosine of the angle
between them exceeds cos^2(25 deg), rationalized here as 8214/10000
(squaring avoids radicals and also gives the antipodal symmetry of peak
directions). -/
def tooClose25 (u v : Vec3) : Bool :=
  decide ((8214/10000 : ℚ) * (normSq u * normSq v) < dotV u v ^ 2)

lemma tooClose25_symm (u v : Vec3) : tooClose25 u v = tooClose25 v u := by
  have hd : dotV u v = dotV v u := by unfold dotV; ring
  unfold tooClose25
  rw [hd, mul_comm (normSq u) (normSq v)]

/-- Three concrete candidate peaks, two of them 5.7 degrees apart. -/
def cands25 : List Peak :=
  [Peak.mk (Vec3.mk 1 0 0) 1, Peak.mk (Vec3.mk 0 1 0) (1/2),
   Peak.mk (Vec3.mk 1 (1/10) 0) (3/4)]

/-- Witness for C3 at the 25-degree closeness test with k = 2. -/
theorem peak_limit_separation_witness :
    (peaksFromModel tooClose25 (1/5) 2 cands25).length ≤ 2
    ∧ List.Pairwise (fun a b => tooClose25 a.dir b.dir = false)
        (peaksFromModel tooClose25 (1/5) 2 cands25) :=
  peak_limit_separation tooClose25 (1/5) 2 cands25 tooClose25_symm

/-! ## Seed generation

Modelled from the spec (section 4.5): dipy `utils.seeds_from_mask` is
external.  For each true voxel of a binary mask, `d` evenly spaced sample
offsets per axis (`d^3` sub-voxel sample points per voxel) are generated
and mapped through the affine into physical space. -/

/-- A voxel-to-physical affine transform: a 3x3 linear part plus a
translation, all rational. -/
structure Affine3 where
  a11 : ℚ
  a12 : ℚ
  a13 : ℚ
  a21 : ℚ
  a22 : ℚ
  a23 : ℚ
  a31 : ℚ
  a32 : ℚ
  a33 : ℚ
  t1 : ℚ
  t2 : ℚ
  t3 : ℚ
deriving DecidableEq

/-- Apply an affine transform to a point. -/
def applyAffinePt (A : Affine3) (p : Vec3) : Vec3 :=
  Vec3.mk (A.a11 * p.x + A.a12 * p.y + A.a13 * p.z + A.t1)
    (A.a21 * p.x + A.a22 * p.y + A.a23 * p.z + A.t2)
    (A.a31 * p.x + A.a32 * p.y + A.a33 * p.z + A.t3)

/-- The `d` evenly spaced sub-voxel sample offsets along one axis,
centered within the voxel. -/
def subOffsets (d : Nat) : List ℚ :=
  (List.range d).map fun (i : Nat) => ((i : ℚ) + 1/2) / (d : ℚ) - 1/2

/-- All voxel index triples of an nx x ny x nz grid, in row-major order. -/
def voxelGrid (nx ny nz : Nat) : List (Nat × Nat × Nat) :=
  (List.range nx).flatMap fun i =>
    (List.range ny).flatMap fun j =>
      (List.range nz).map fun k => (i, j, k)

/-- The voxels at which the binary mask is true, in grid order. -/
def trueVoxels (nx ny nz : Nat) (mask : Nat × Nat × Nat → Bool) :
    List (Nat × Nat × Nat) :=
  (voxelGrid nx ny nz).filter mask

/-- Modelled from the spec: seed generation.  Every true voxel of the mask
contributes `d^3` sub-voxel sample points, each mapped through the affine
into physical space; the output order is determined by the grid order. -/
def seedsFromMask (A : Affine3) (d nx ny nz : Nat)
    (mask : Nat × Nat × Nat → Bool) : List Vec3 :=
  (trueVoxels nx ny nz mask).flatMap fun v =>
    (subOffsets d).flatMap fun ox =>
      (subOffsets d).flatMap fun oy =>
        (subOffsets d).map fun oz =>
          applyAffinePt A
            (Vec3.mk ((v.1 : ℚ) + ox) ((v.2.1 : ℚ) + oy) ((v.2.2 : ℚ) + oz))

lemma length_bind_const {α β : Type} (l : List α) (f : α → List β)
    (c : Nat) (h : ∀ a ∈ l, (f a).length = c) :
    (l.flatMap f).length = c * l.length := by
  induction l with
  | nil => simp
  | cons a l ih =>
    rw [List.flatMap_cons, List.length_append, List.length_cons,
      h a (List.mem_cons_self a l), Nat.mul_succ,
      ih fun b hb => h b (List.mem_cons_of_mem a hb), Nat.add_comm]

lemma subOffsets_length (d : Nat) : (subOffsets d).length = d := by
  rw [subOffsets, List.length_map, List.length_range]

/-- Claim C4: seed generation on a binary mask with `|mask|` true voxels
and density `d` produces exactly `d^3 * |mask|` physical-space seed
points, and the output is deterministic: it depends only on the values of
the mask (together with the affine and the density). -/
theorem seeds_count_deterministic (A : Affine3) (d nx ny nz : Nat)
    (mask mask2 : Nat × Nat × Nat → Bool)
    (hmm : ∀ v, mask v = mask2 v) :
    (seedsFromMask A d nx ny nz mask).length
        = d ^ 3 * (trueVoxels nx ny nz mask).length
    ∧ seedsFromMask A d nx ny nz mask = seedsFromMask A d nx ny nz mask2 := by
  constructor
  · unfold seedsFromMask
    rw [length_bind_const _ _ (d ^ 3)]
    intro v _
    rw [length_bind_const _ _ (d * d)]
    · rw [subOffsets_length]
      ring
    · intro ox _
      rw [length_bind_const _ _ d]
      · rw [subOffsets_length]
      · intro oy _
        rw [List.length_map, subOffsets_length]
  · unfold seedsFromMask trueVoxels
    rw [List.filter_congr fun v _ => hmm v]

/-- The identity affine transform. -/
def idAffine : Affine3 :=
  Affine3.mk 1 0 0 0 1 0 0 0 1 0 0 0

/-- A concrete mask on a 2x2x1 grid that is true on the x = 0 plane. -/
def maskX0 : Nat × Nat × Nat → Bool := fun v => decide (v.1 = 0)

/-- Witness for C4 on the concrete 2x2x1 grid with density 2. -/
theorem seeds_count_deterministic_witness :
    (seedsFromMask idAffine 2 2 2 1 maskX0).length
        = 2 ^ 3 * (trueVoxels 2 2 1 maskX0).length
    ∧ seedsFromMask idAffine 2 2 2 1 maskX0
        = seedsFromMask idAffine 2 2 2 1 maskX0 :=
  seeds_count_deterministic idAffine 2 2 2 1 maskX0 maskX0 fun _ => rfl

/-! ## Tractogram serialization and coordinate-space round trips

Modelled from the spec (section 4.7): dipy `StatefulTractogram`,
`save_trk` and `load_trk` are external.  A stateful tractogram carries its
streamlines together with the reference voxel-to-RASmm affine and the
declared coordinate space; saving writes the point sequences flat with
per-streamline point counts plus the spatial metadata, loading splits them
back.  Coordinates are exact rationals, so "to floating-point tolerance"
is realized as exact equality. -/

/-- The declared coordinate space of a tractogram. -/
inductive SpaceDecl where
  | rasmm : SpaceDecl
  | voxel : SpaceDecl
deriving DecidableEq

/-- A stateful tractogram: streamlines, reference affine, declared space. -/
structure Sft where
  streamlines : List (List Vec3)
  voxToRas : Affine3
  space : SpaceDecl
deriving DecidableEq

/-- The persisted streamline file: flat point data with per-streamline
counts, plus the reference affine and the declared space. -/
structure TrkFile where
  counts : List Nat
  points : List Vec3
  voxToRas : Affine3
  space : SpaceDecl
deriving DecidableEq

/-- Modelled from the spec: saving a tractogram flattens the streamlines
into the file's point table, recording each streamline's point count. -/
def saveTrk (s : Sft) : TrkFile :=
  TrkFile.mk (s.streamlines.map List.length) s.streamlines.flatten
    s.voxToRas s.space

/-- Split a flat point table back into streamlines by the recorded
per-streamline point counts. -/
def splitCounts : List Nat → List Vec3 → List (List Vec3)
  | [], _ => []
  | n :: ns, pts => pts.take n :: splitCounts ns (pts.drop n)

/-- Modelled from the spec: loading reassembles the streamlines from the
flat point table and restores the spatial metadata. -/
def loadTrk (f : TrkFile) : Sft :=
  Sft.mk (splitCounts f.counts f.points) f.voxToRas f.space

/-- The determinant of the linear part of an affine transform. -/
def detA (A : Affine3) : ℚ :=
  A.a11 * (A.a22 * A.a33 - A.a23 * A.a32)
    - A.a12 * (A.a21 * A.a33 - A.a23 * A.a31)
    + A.a13 * (A.a21 * A.a32 - A.a22 * A.a31)

/-- The inverse affine transform (adjugate over determinant for the linear
part; the translation is mapped accordingly).  Meaningful when the
determinant is nonzero. -/
def invA (A : Affine3) : Affine3 :=
  let d := detA A
  let b11 := (A.a22 * A.a33 - A.a23 * A.a32) / d
  let b12 := (A.a13 * A.a32 - A.a12 * A.a33) / d
  let b13 := (A.a12 * A.a23 - A.a13 * A.a22) / d
  let b21 := (A.a23 * A.a31 - A.a21 * A.a33) / d
  let b22 := (A.a11 * A.a33 - A.a13 * A.a31) / d
  let b23 := (A.a13 * A.a21 - A.a11 * A.a23) / d
  let b31 := (A.a21 * A.a32 - A.a22 * A.a31) / d
  let b32 := (A.a12 * A.a31 - A.a11 * A.a32) / d
  let b33 := (A.a11 * A.a22 - A.a12 * A.a21) / d
  Affine3.mk b11 b12 b13 b21 b22 b23 b31 b32 b33
    (-(b11 * A.t1 + b12 * A.t2 + b13 * A.t3))
    (-(b21 * A.t1 + b22 * A.t2 + b23 * A.t3))
    (-(b31 * A.t1 + b32 * A.t2 + b33 * A.t3))

lemma splitCounts_flatten :
    ∀ ls : List (List Vec3),
      splitCounts (ls.map List.length) ls.flatten = ls := by
  intro ls
  induction ls with
  | nil => rfl
  | cons l ls ih =>
    rw [List.map_cons, List.flatten_cons, splitCounts,
      List.take_left, List.drop_left, ih]

/-- Claim C5: saving a tractogram and loading it back reproduces every
streamline's point coordinates exactly (hence within floating-point
tolerance) in the same declared coordinate space, and mapping a point from
voxel space to physical (RASmm) space and back through the inverse affine
is the identity whenever the reference affine is invertible. -/
theorem tractogram_roundtrip (s : Sft) (A : Affine3) (p : Vec3)
    (hd : detA A ≠ 0) :
    loadTrk (saveTrk s) = s
    ∧ applyAffinePt (invA A) (applyAffinePt A p) = p := by
  constructor
  · cases s with
    | mk ls B sp =>
      unfold saveTrk loadTrk
      simp only
      rw [splitCounts_flatten]
  · cases A with
    | mk a11 a12 a13 a21 a22 a23 a31 a32 a33 t1 t2 t3 =>
      cases p with
      | mk px py pz =>
        unfold detA at hd
        simp only at hd
        unfold applyAffinePt invA detA
        simp only
        rw [Vec3.mk.injEq]
        refine ⟨?_, ?_, ?_⟩ <;> field_simp <;> ring

/-- A concrete anisotropic affine: scaling by (2,3,4) plus translation. -/
def scaleAffine : Affine3 :=
  Affine3.mk 2 0 0 0 3 0 0 0 4 5 6 7

/-- A concrete two-streamline tractogram declared in RASmm space. -/
def sampleSft : Sft :=
  Sft.mk [[Vec3.mk 1 2 3, Vec3.mk 4 5 6], [Vec3.mk 7 8 9]]
    scaleAffine SpaceDecl.rasmm

/-- Witness for C5 at a concrete tractogram, affine, and point. -/
theorem tractogram_roundtrip_witness :
    loadTrk (saveTrk sampleSft) = sampleSft
    ∧ applyAffinePt (invA scaleAffine)
        (applyAffinePt scaleAffine (Vec3.mk 1 2 3)) = Vec3.mk 1 2 3 :=
  tractogram_roundtrip sampleSft scaleAffine (Vec3.mk 1 2 3)
    (by norm_num [detA, scaleAffine])

/-! ## The persisted response-function file

The episode `constrained_spherical_deconvolution.md` saves the fiber
response function with `np.savetxt(..., np.hstack([response[0],
response[1]]))`, where `response` is the pair returned by
`auto_response`: an array of the three response eigenvalues and the
average S0 signal value, a single scalar — the episode itself prints
`(array([0.00159258, 0.00033926, 0.00033926]), 201.48318)`. -/

/-- The concrete `response` value printed in the episode: three
eigenvalues and the scalar mean S0. -/
def autoResponseOutput : List ℚ × ℚ :=
  ([159258/100000000, 33926/100000000, 33926/100000000], 20148318/100000)

/-- Embedding of `np.hstack([response[0], response[1]])` with `response[1]`
a scalar: the eigenvalue array followed by the single S0 value. -/
def hstackResponse (r : List ℚ × ℚ) : List ℚ :=
  r.1 ++ [r.2]

/-- Counterexample to C8 as stated: at the episode's own printed response
value, the persisted file holds 4 scalar values, not the 6 that two
stacked 3-vectors would give. -/
theorem frf_not_six_values :
    (hstackResponse autoResponseOutput).length = 4
    ∧ (hstackResponse autoResponseOutput).length ≠ 6 := by
  constructor
  · rfl
  · intro hsix
    simp [hstackResponse, autoResponseOutput] at hsix

/-- Claim C8 (amended): the persisted scalar response-function text file
consists of a 3-vector stacked with a single scalar — exactly four values:
the three response-function eigenvalues followed by the mean S0 signal
value. -/
theorem frf_four_values (r : List ℚ × ℚ) (h3 : r.1.length = 3) :
    (hstackResponse r).length = 4
    ∧ (hstackResponse r).take 3 = r.1
    ∧ (hstackResponse r).getLast? = some r.2 := by
  refine ⟨?_, ?_, ?_⟩
  · rw [hstackResponse, List.length_append, h3, List.length_singleton]
  · rw [hstackResponse, ← h3, List.take_left]
  · rw [hstackResponse, List.getLast?_append]
    rfl

/-- Witness for the amended C8 at the episode's printed response value. -/
theorem frf_four_values_witness :
    (hstackResponse autoResponseOutput).length = 4
    ∧ (hstackResponse autoResponseOutput).take 3 = autoResponseOutput.1
    ∧ (hstackResponse autoResponseOutput).getLast?
        = some autoResponseOutput.2 :=
  frf_four_values autoResponseOutput rfl

/-! ## The missing-comma typo in the dataset-locator cell

The notebook's first code cell contains
`bval = layout.get(subject=subj suffix='preproc', extension='bval',
return_type='file')[0]` — no comma between `subj` and `suffix`.  Python
keyword-argument lists require a comma between arguments; the token
sequence of that argument list is checked here against the grammar
`kwarglist := kwarg (',' kwarg)* ','?` with `kwarg := NAME '=' atom`. -/

/-- A token of a Python call-argument list: an identifier, a literal, the
equals sign, or a comma. -/
inductive PTok where
  | ident : String → PTok
  | lit : String → PTok
  | eq : PTok
  | comma : PTok
deriving DecidableEq

/-- An atom usable as a keyword-argument value. -/
def isAtomTok : PTok → Bool
  | PTok.ident _ => true
  | PTok.lit _ => true
  | _ => false

/-- Recognizer for Python keyword-argument lists: `NAME '=' atom`,
separated by commas (a trailing comma is allowed, as in Python). -/
def kwargListOk : List PTok → Bool
  | [] => true
  | [PTok.ident _, PTok.eq, v] => isAtomTok v
  | PTok.ident _ :: PTok.eq :: v :: PTok.comma :: rest =>
    isAtomTok v && kwargListOk rest
  | _ => false

/-- The token sequence of the argument list of the notebook's
`bval = layout.get(...)` call, exactly as written (no comma after
`subj`). -/
def bvalCallArgs : List PTok :=
  [PTok.ident "subject", PTok.eq, PTok.ident "subj",
   PTok.ident "suffix", PTok.eq, PTok.lit "preproc", PTok.comma,
   PTok.ident "extension", PTok.eq, PTok.lit "bval", PTok.comma,
   PTok.ident "return_type", PTok.eq, PTok.lit "file"]

/-- The same argument list with the missing comma restored. -/
def bvalCallArgsFixed : List PTok :=
  [PTok.ident "subject", PTok.eq, PTok.ident "subj", PTok.comma,
   PTok.ident "suffix", PTok.eq, PTok.lit "preproc", PTok.comma,
   PTok.ident "extension", PTok.eq, PTok.lit "bval", PTok.comma,
   PTok.ident "return_type", PTok.eq, PTok.lit "file"]

/-- Claim C9: the dataset-locator cell's keyword-argument list, as written,
fails the keyword-argument grammar (so the cell raises a SyntaxError when
executed and is not a valid Python program), while inserting the single
missing comma makes it well-formed. -/
theorem missing_comma_invalid :
    kwargListOk bvalCallArgs = false
    ∧ kwargListOk bvalCallArgsFixed = true := by
  constructor <;> rfl

/-! ## The `os` module is never imported in the tractography notebook

Each code cell of the notebook is summarized by the names its import
statements bind, the names its assignments bind, and the free names it
references.  Python resolves a free name against previously bound names;
referencing a name never bound raises a NameError. -/

/-- A summary of one notebook code cell: names bound by imports, names
bound by assignments, and free names referenced. -/
structure NbCell where
  importedNames : List String
  assignedNames : List String
  usedNames : List String
deriving DecidableEq

/-- The notebook's final visualization cell: it references `os` (via
`os.path.exists`, `os.makedirs`, `os.path.join`) without importing it. -/
def vizCell : NbCell :=
  NbCell.mk ["window", "actor", "colormap", "plt"]
    ["streamlines_actor", "scene", "out_dir",
     "det_tractogram_eudx_scene_arr", "fig", "axes"]
    ["actor", "streamlines", "window", "subj", "os", "out_dir", "scene",
     "plt", "det_tractogram_eudx_scene_arr", "axes"]

/-- The code cells of `deterministic_tractography.ipynb`, in order (the
first cell as with the C9 typo corrected, so that name binding is
well-defined). -/
def tractographyCells : List NbCell :=
  [NbCell.mk ["BIDSLayout", "read_bvals_bvecs", "gradient_table", "img",
      "nib"]
     ["layout", "subj", "dwi", "bval", "bvec", "dwi_img", "affine",
      "gt_bvals", "gt_bvecs", "gtab"]
     ["BIDSLayout", "subj", "layout", "img", "dwi", "dwi_img",
      "read_bvals_bvecs", "bval", "bvec", "gradient_table", "gt_bvals",
      "gt_bvecs"],
   NbCell.mk ["dti", "median_otsu"]
     ["dwi_data", "dwi_mask", "dti_model", "dti_fit"]
     ["dwi_img", "median_otsu", "dwi_data", "dti", "gtab", "dti_model",
      "dwi_mask"],
   NbCell.mk [] ["fa_img", "evecs_img"] ["dti_fit"],
   NbCell.mk ["np"] [] ["fa_img", "np"],
   NbCell.mk ["get_sphere"] ["sphere"] ["get_sphere"],
   NbCell.mk ["peaks_from_model"] ["peak_indices"]
     ["peaks_from_model", "dti_model", "dwi_data", "sphere", "dwi_mask"],
   NbCell.mk ["ThresholdStoppingCriterion"] ["stopping_criterion"]
     ["ThresholdStoppingCriterion", "fa_img"],
   NbCell.mk ["utils"] ["seed_mask", "seeds"]
     ["fa_img", "seed_mask", "utils", "affine"],
   NbCell.mk ["LocalTracking", "Streamlines"]
     ["streamlines_generator", "streamlines"]
     ["LocalTracking", "peak_indices", "stopping_criterion", "seeds",
      "affine", "Streamlines", "streamlines_generator"],
   NbCell.mk ["Space", "StatefulTractogram", "save_trk"] ["sft"]
     ["StatefulTractogram", "streamlines", "dwi_img", "Space", "save_trk",
      "sft"],
   NbCell.mk ["load_tractogram", "load_trk"] [] [],
   NbCell.mk [] ["sft"] ["load_trk"],
   NbCell.mk [] ["streamlines"] ["sft"],
   vizCell]

/-- Every name bound by any cell of the notebook, by import or by
assignment. -/
def notebookBoundNames : List String :=
  (tractographyCells.map fun c => c.importedNames ++ c.assignedNames).flatten

/-- Claim C10: the visualization cell references the name `os`, yet no
cell of the notebook binds `os` by an import or an assignment, so running
the notebook top-to-bottom (even with the C9 comma restored) raises a
NameError at that cell. -/
theorem os_name_unbound :
    "os" ∈ vizCell.usedNames
    ∧ vizCell ∈ tractographyCells
    ∧ "os" ∉ notebookBoundNames := by
  refine ⟨?_, ?_, ?_⟩
  · decide
  · decide
  · decide

end DMRI
